import Mathlib

/-!
Shallow embedding of the `alltest` recursive test/build runner (final version
of `alltest.go`): the recursive directory evaluator `RunTestsRecursively`, its
helper classification functions, the captured-output trimming step, the
relative-path computation via `strings.Replace`, and the skip-list resolution
loop from `main`.

The filesystem is modelled explicitly as a tree of entries; the external
`go` tool is an oracle parameter mapping (directory, arguments) to a
success flag and captured output.  A partial (panicking) computation is
modelled with `Option`: `none` means the Go program panics (slice bounds
out of range).
-/

namespace Alltest

/-- Models Go `strings.HasSuffix` on the byte/char sequence of the strings. -/
def hasSuffix (s pat : String) : Bool :=
  pat.toList.isSuffixOf s.toList

/-- Scan helper for substring search: does `sub` occur in the list? -/
def containsAux (sub : List Char) : List Char → Bool
  | [] => sub.isPrefixOf []
  | c :: rest => sub.isPrefixOf (c :: rest) || containsAux sub rest

/-- Models Go `strings.Contains s sub`. -/
def goContains (s sub : String) : Bool :=
  containsAux sub.toList s.toList

/-- Delete every non-overlapping occurrence of `old` (nonempty) from the list,
scanning left to right; models `strings.Replace(s, old, "", -1)` for
nonempty `old`. -/
def stripOcc (old : List Char) : List Char → List Char
  | [] => []
  | c :: rest =>
    if h : old ≠ [] ∧ old.isPrefixOf (c :: rest) then
      stripOcc old (List.drop old.length (c :: rest))
    else
      c :: stripOcc old rest
termination_by l => l.length
decreasing_by
  · have hlen : 1 ≤ old.length := by
      cases old with
      | nil => exact absurd rfl h.1
      | cons a as => simp
    simp only [List.length_drop, List.length_cons]
    omega
  · simp

/-- Models Go `strings.Replace(s, old, "", -1)` (replace all occurrences by
the empty string).  When `old` is empty, Go inserts the (empty) replacement
at every position, leaving `s` unchanged. -/
def goReplaceAll (s old : String) : String :=
  match old.toList with
  | [] => s
  | c :: cs => String.mk (stripOcc (c :: cs) s.toList)

/-- Models the Go slice expression `b[0:hi]` with an `Int` upper bound:
defined (as a prefix) when `0 ≤ hi ≤ len b`, a runtime panic (`none`)
otherwise. -/
def goSliceTo (b : List Char) (hi : Int) : Option (List Char) :=
  if 0 ≤ hi ∧ hi ≤ (b.length : Int) then some (b.take hi.toNat) else none

/-- The captured-output trimming step of `RunTestsRecursively`:
`if len(bytes) > 0 && bytes[len(bytes)-1] == '\n' { bytes = bytes[0 : len(bytes)-2] }`. -/
def trimBytes (b : List Char) : Option (List Char) :=
  if b ≠ [] ∧ b.getLast? = some '\n' then
    goSliceTo b ((b.length : Int) - 2)
  else
    some b

/-- Models `path.Join(d, n)` for the clean, nonempty path components the
traversal produces (no `.`/`..`/empty segments, `d` nonempty). -/
def pathJoin (d n : String) : String :=
  d ++ "/" ++ n

/-- Run configuration (`Conf` in the source).  `verbose` is a package-level
flag in the source; it is carried here as a configuration field, matching its
read-only use inside `RunTestsRecursively`. -/
structure Conf where
  skipDirs : List (Option Nat)
  buildOnly : Bool
  short : Bool
  race : Bool
  verbose : Bool
deriving DecidableEq

/-- Models `os.SameFile(stat, skipDir)`: directory identities are numbers;
a `none` entry models the nil `FileInfo` appended for an unresolvable skip
target, which `os.SameFile` never matches. -/
def sameFile (id : Nat) : Option Nat → Bool
  | some j => id == j
  | none => false

/-- An immediate entry of a directory listing: a subdirectory (with its name,
filesystem identity and its own listing) or a file (name and whether it is a
regular file, i.e. `Mode()&os.ModeType == 0`). -/
inductive FsEntry where
  | dirE (name : String) (id : Nat) (entries : List FsEntry)
  | fileE (name : String) (regular : Bool)

/-- The name component of a listing entry. -/
def entryName : FsEntry → String
  | .dirE n _ _ => n
  | .fileE n _ => n

/-- Models `isNormalFile`: `stat.Mode()&os.ModeType == 0`. -/
def isNormalFile (regular : Bool) : Bool := regular

/-- Models `isTestFile`. -/
def isTestFile (name : String) (regular : Bool) : Bool :=
  isNormalFile regular && hasSuffix name "_test.go"

/-- Models `isGoFile`. -/
def isGoFile (name : String) (regular : Bool) : Bool :=
  isNormalFile regular && hasSuffix name ".go"

/-- The classification loop over the directory listing, threading the
`anyTestsInDir` / `anyGoSrcsInDir` flags exactly as the source's
`else if isTestFile(info) ... else if isGoFile(info) ...` chain does. -/
def classifyLoop : List FsEntry → Bool → Bool → Bool × Bool
  | [], t, g => (t, g)
  | .dirE _ _ _ :: rest, t, g => classifyLoop rest t g
  | .fileE n reg :: rest, t, g =>
    if isTestFile n reg then classifyLoop rest true g
    else if isGoFile n reg then classifyLoop rest t true
    else classifyLoop rest t g

/-- The `go test` argument list: `["test"]`, then `-short`, then `-race`. -/
def goTestOpts (conf : Conf) : List String :=
  let o := ["test"]
  let o := if conf.short then o ++ ["-short"] else o
  if conf.race then o ++ ["-race"] else o

/-- The action decision: `test` options when the directory has test sources
and `buildOnly` is off, else `build` when it has (non-test) go sources, else
no invocation. -/
def chooseOpts (conf : Conf) (anyTests anyGoSrcs : Bool) : Option (List String) :=
  if anyTests && !conf.buildOnly then some (goTestOpts conf)
  else if anyGoSrcs then some ["build"]
  else none

/-- A log event at one of the three severities used by the evaluator. -/
inductive LogEv where
  | debug (msg : String)
  | error (msg : String)
  | info (msg : String)
deriving DecidableEq

/-- Observable outcome of evaluating a directory subtree: the failure list
returned by `RunTestsRecursively`, the tool invocations performed (directory,
arguments), and the log events emitted, in order. -/
structure RunOut where
  failures : List String
  invocations : List (String × List String)
  logs : List LogEv
deriving DecidableEq

/-- The per-directory body of `RunTestsRecursively`, with the recursion over
subdirectories abstracted as the `children` outcome: the `trash` substring
check, the skip-target identity check, the `.alltestignore` check, then the
action decision, tool invocation, output trimming and result recording.
The skip branches do not consult `children`, mirroring that the source
returns before recursing.

`invokeStep` is the tail of the body after the listing loop: the action
decision on the classification flags, the tool invocation, the trimming of
captured output (possibly a panic, `none`), and the recording of the result
against the accumulated child outcome `cr`. -/
def invokeStep (tool : String → List String → Bool × String) (conf : Conf)
    (rootDir dirName : String) (entries : List FsEntry) (cr : RunOut) : Option RunOut :=
  let tg := classifyLoop entries false false
  match chooseOpts conf tg.1 tg.2 with
  | none => some cr
  | some opts =>
    let res := tool dirName opts
    match trimBytes res.2.toList with
    | none => none
    | some bytes =>
      let thisDirPath := goReplaceAll dirName rootDir
      if res.1 then
        some ⟨cr.failures,
              cr.invocations ++ [(dirName, opts)],
              cr.logs ++ (if conf.verbose && !bytes.isEmpty then
                [.debug (String.mk bytes), .info ("Success   " ++ thisDirPath)] else [])⟩
      else
        some ⟨cr.failures ++ [thisDirPath],
              cr.invocations ++ [(dirName, opts)],
              cr.logs ++ (if !bytes.isEmpty then [.error (String.mk bytes)] else [])
                      ++ [.error ("Failed:   " ++ thisDirPath)]⟩

/-- The per-directory body of `RunTestsRecursively` continued: the three
skip checks in source order, then the action step on the accumulated child
outcome. -/
def dirStep (tool : String → List String → Bool × String) (conf : Conf)
    (rootDir dirName : String) (id : Nat) (entries : List FsEntry)
    (children : Option RunOut) : Option RunOut :=
  if goContains dirName "trash" then
    some ⟨[], [], []⟩
  else if conf.skipDirs.any (fun sk => sameFile id sk) then
    some ⟨[], [], [.debug ("skipping directory " ++ dirName ++ " as requested")]⟩
  else if entries.any (fun e => entryName e == ".alltestignore") then
    some ⟨[], [], [.debug ("skipping directory " ++ dirName ++ " as requested due to ignore file")]⟩
  else
    match children with
    | none => none
    | some cr => invokeStep tool conf rootDir dirName entries cr

/-- The listing loop of `RunTestsRecursively`: recursively evaluate each
subdirectory in listing order, concatenating failures, invocations and logs;
file entries contribute nothing here (they only feed `classifyLoop`).
A `none` (panic) anywhere aborts the whole run. -/
def evalEntries (tool : String → List String → Bool × String) (conf : Conf)
    (rootDir dirName : String) : List FsEntry → Option RunOut
  | [] => some ⟨[], [], []⟩
  | .dirE n cid ce :: rest =>
    let dp := pathJoin dirName n
    match dirStep tool conf rootDir dp cid ce (evalEntries tool conf rootDir dp ce) with
    | none => none
    | some r =>
      match evalEntries tool conf rootDir dirName rest with
      | none => none
      | some rs =>
        some ⟨r.failures ++ rs.failures, r.invocations ++ rs.invocations, r.logs ++ rs.logs⟩
  | .fileE _ _ :: rest => evalEntries tool conf rootDir dirName rest
termination_by l => sizeOf l

/-- `RunTestsRecursively(rootDir, dirName, conf)` on a directory with
identity `id` and immediate listing `entries`. -/
def RunTestsRecursively (tool : String → List String → Bool × String) (conf : Conf)
    (rootDir dirName : String) (id : Nat) (entries : List FsEntry) : Option RunOut :=
  dirStep tool conf rootDir dirName id entries (evalEntries tool conf rootDir dirName entries)

/-- The exit-status mapping in `main`: non-zero iff the failure list is
non-empty. -/
def exitCode (failedDirs : List String) : Nat :=
  if failedDirs.length > 0 then 1 else 0

/-- The skip-list resolution loop in `main`: resolve each name with `stat`
(`none` = `os.Stat` error); empty names are skipped; an unresolvable
`"trash"` is silently dropped; any other unresolvable name produces a
warning and appends the nil stat.  Returns the resolved skip list and the
warnings, in order. -/
def resolveSkipDirs (stat : String → Option Nat) : List String → List (Option Nat) × List String
  | [] => ([], [])
  | n :: rest =>
    let r := resolveSkipDirs stat rest
    if n = "" then r
    else
      match stat n with
      | some fid => (some fid :: r.1, r.2)
      | none =>
        if n = "trash" then r
        else (none :: r.1, ("Couldn't stat directory to skip " ++ n) :: r.2)

/-- A listing entry counted by the classification loop as a test source:
a regular file matched by `isTestFile`. -/
def isTestEntry : FsEntry → Bool
  | .fileE n reg => isTestFile n reg
  | .dirE _ _ _ => false

/-- A listing entry that sets `anyGoSrcsInDir` in the classification loop:
a regular `.go` file that is not a test file (test files are captured by the
earlier `else if isTestFile` branch and never reach the `isGoFile` branch). -/
def isBuildSrcEntry : FsEntry → Bool
  | .fileE n reg => !(isTestFile n reg) && isGoFile n reg
  | .dirE _ _ _ => false

/-- The three skip conditions of the evaluator, in source order: `trash`
substring, skip-target identity match, ignore-marker file. -/
def skippedDir (conf : Conf) (dirName : String) (id : Nat) (entries : List FsEntry) : Bool :=
  goContains dirName "trash" || conf.skipDirs.any (fun sk => sameFile id sk)
    || entries.any (fun e => entryName e == ".alltestignore")

/-- Whether a (non-skipped) directory's own tool invocation happens and
fails: the action decision picks an invocation and the tool reports
failure. -/
def failedSelf (tool : String → List String → Bool × String) (conf : Conf)
    (dirName : String) (entries : List FsEntry) : Bool :=
  match chooseOpts conf (classifyLoop entries false false).1 (classifyLoop entries false false).2 with
  | some opts => !(tool dirName opts).1
  | none => false

/-- Specification-side description of the failure sequence (following the
spec's words): the depth-first, children-before-self, listing-order
concatenation of the failures of every invoked-and-failed directory in the
subtree of each entry. -/
def dfsFailures (tool : String → List String → Bool × String) (conf : Conf)
    (rootDir dirName : String) : List FsEntry → List String
  | [] => []
  | .dirE n cid ce :: rest =>
    (if skippedDir conf (pathJoin dirName n) cid ce then []
     else dfsFailures tool conf rootDir (pathJoin dirName n) ce
          ++ (if failedSelf tool conf (pathJoin dirName n) ce then
                [goReplaceAll (pathJoin dirName n) rootDir] else []))
    ++ dfsFailures tool conf rootDir dirName rest
  | .fileE _ _ :: rest => dfsFailures tool conf rootDir dirName rest
termination_by l => sizeOf l

/-- Specification-side failure sequence for a whole directory: empty when
skipped, otherwise descendant failures (depth-first, children before self,
siblings in listing order) followed by the directory's own relative path
when its own invocation failed. -/
def dfsDirFailures (tool : String → List String → Bool × String) (conf : Conf)
    (rootDir dirName : String) (id : Nat) (entries : List FsEntry) : List String :=
  if skippedDir conf dirName id entries then []
  else dfsFailures tool conf rootDir dirName entries
       ++ (if failedSelf tool conf dirName entries then [goReplaceAll dirName rootDir] else [])

/-! ### Concrete end-to-end scenario

Root `/w` containing `pkgA` (test source, test fails with output `FAIL\n`),
`pkgB` (buildable source, build succeeds), and `trash/pkgC` (test source).
-/

/-- Tool oracle for the scenario: the test in `pkgA` fails, everything else
succeeds with empty output. -/
def toolA : String → List String → Bool × String :=
  fun d _ => if d = "/w/pkgA" then (false, "FAIL\n") else (true, "")

/-- Default configuration: no skip targets, all flags off. -/
def confA : Conf := ⟨[], false, false, false, false⟩

/-- The root listing of the scenario. -/
def rootEntriesA : List FsEntry :=
  [ .dirE "pkgA" 1 [.fileE "foo_test.go" true],
    .dirE "pkgB" 2 [.fileE "main.go" true],
    .dirE "trash" 3 [.dirE "pkgC" 4 [.fileE "c_test.go" true]] ]

/-- Tool oracle that fails everywhere with output `x` (no trailing
newline). -/
def toolB : String → List String → Bool × String :=
  fun _ _ => (false, "x")

/-! ### Helper lemmas -/

/-- Unfolding of the listing loop on the empty listing. -/
theorem evalEntries_nil (tool : String → List String → Bool × String) (conf : Conf)
    (rootDir dirName : String) :
    evalEntries tool conf rootDir dirName [] = some ⟨[], [], []⟩ := by
  simp [evalEntries]

/-- Unfolding of the listing loop on a subdirectory entry: evaluate the
subdirectory recursively, then the rest, concatenating outcomes. -/
theorem evalEntries_cons_dir (tool : String → List String → Bool × String) (conf : Conf)
    (rootDir dirName n : String) (cid : Nat) (ce rest : List FsEntry) :
    evalEntries tool conf rootDir dirName (.dirE n cid ce :: rest) =
      match RunTestsRecursively tool conf rootDir (pathJoin dirName n) cid ce with
      | none => none
      | some r =>
        match evalEntries tool conf rootDir dirName rest with
        | none => none
        | some rs =>
          some ⟨r.failures ++ rs.failures, r.invocations ++ rs.invocations, r.logs ++ rs.logs⟩ := by
  simp only [evalEntries, RunTestsRecursively]

/-- Unfolding of the listing loop on a file entry: files contribute nothing
to the recursion. -/
theorem evalEntries_cons_file (tool : String → List String → Bool × String) (conf : Conf)
    (rootDir dirName n : String) (reg : Bool) (rest : List FsEntry) :
    evalEntries tool conf rootDir dirName (.fileE n reg :: rest) =
      evalEntries tool conf rootDir dirName rest := by
  simp only [evalEntries]

/-- The subdirectory unfolding in monadic form, convenient for rewriting. -/
theorem evalEntries_cons_dir_bind (tool : String → List String → Bool × String) (conf : Conf)
    (rootDir dirName n : String) (cid : Nat) (ce rest : List FsEntry) :
    evalEntries tool conf rootDir dirName (.dirE n cid ce :: rest) =
      (RunTestsRecursively tool conf rootDir (pathJoin dirName n) cid ce).bind (fun r =>
        (evalEntries tool conf rootDir dirName rest).map (fun rs =>
          ⟨r.failures ++ rs.failures, r.invocations ++ rs.invocations, r.logs ++ rs.logs⟩)) := by
  rw [evalEntries_cons_dir]
  cases RunTestsRecursively tool conf rootDir (pathJoin dirName n) cid ce with
  | none => rfl
  | some r =>
    cases evalEntries tool conf rootDir dirName rest with
    | none => rfl
    | some rs => rfl

/-- A list is a prefix (in the Boolean sense) of itself. -/
theorem isPrefixOf_self_char (l : List Char) : l.isPrefixOf l = true := by
  induction l with
  | nil => rfl
  | cons c cs ih => simp [List.isPrefixOf, ih]

/-- Deleting every occurrence of a string from itself yields the empty
string: `strings.Replace(r, r, "", -1) = ""`. -/
theorem goReplaceAll_self (r : String) : goReplaceAll r r = "" := by
  rcases r with ⟨l⟩
  cases l with
  | nil => rfl
  | cons c cs =>
    show String.mk (stripOcc (c :: cs) (c :: cs)) = ""
    rw [stripOcc]
    simp [isPrefixOf_self_char, List.drop_length, stripOcc]

/-- Characterization of the classification loop: the `anyTestsInDir` flag
becomes true iff some entry is a test file, and `anyGoSrcsInDir` iff some
entry is a regular non-test `.go` file. -/
theorem classifyLoop_eq (l : List FsEntry) : ∀ t g : Bool,
    classifyLoop l t g = (t || l.any isTestEntry, g || l.any isBuildSrcEntry) := by
  induction l with
  | nil => simp [classifyLoop]
  | cons e rest ih =>
    intro t g
    cases e with
    | dirE n i es => simp [classifyLoop, ih, isTestEntry, isBuildSrcEntry]
    | fileE n reg =>
      by_cases ht : isTestFile n reg
      · simp [classifyLoop, ht, ih, isTestEntry, isBuildSrcEntry]
      · by_cases hg : isGoFile n reg
        · simp [classifyLoop, ht, hg, ih, isTestEntry, isBuildSrcEntry]
        · simp [classifyLoop, ht, hg, ih, isTestEntry, isBuildSrcEntry]

/-- Evaluating `pkgA` in the scenario: the test runs and fails; the captured
output `FAIL\n` is mangled to `FAI` by the trimming step; the relative path
`/pkgA` is recorded. -/
theorem pkgA_eval : RunTestsRecursively toolA confA "/w" "/w/pkgA" 1 [.fileE "foo_test.go" true] =
    some ⟨["/pkgA"], [("/w/pkgA", ["test"])], [.error "FAI", .error "Failed:   /pkgA"]⟩ := by
  simp [RunTestsRecursively, evalEntries, dirStep, invokeStep, classifyLoop, chooseOpts,
    goTestOpts, trimBytes, goSliceTo, goReplaceAll, stripOcc, isTestFile, isGoFile,
    isNormalFile, hasSuffix, entryName, sameFile, toolA, confA]
  decide

/-- Evaluating `pkgB` in the scenario: the build runs and succeeds; nothing
is logged (verbose is off). -/
theorem pkgB_eval : RunTestsRecursively toolA confA "/w" "/w/pkgB" 2 [.fileE "main.go" true] =
    some ⟨[], [("/w/pkgB", ["build"])], []⟩ := by
  simp [RunTestsRecursively, evalEntries, dirStep, invokeStep, classifyLoop, chooseOpts,
    goTestOpts, trimBytes, goSliceTo, isTestFile, isGoFile,
    isNormalFile, hasSuffix, entryName, sameFile, toolA, confA]
  decide

/-- Evaluating `trash` in the scenario: the path contains the `trash`
marker, so the whole subtree is skipped with no failures, invocations or
logs. -/
theorem trashA_eval :
    RunTestsRecursively toolA confA "/w" "/w/trash" 3 [.dirE "pkgC" 4 [.fileE "c_test.go" true]] =
      some ⟨[], [], []⟩ := by
  have h : goContains "/w/trash" "trash" = true := by decide
  simp [RunTestsRecursively, dirStep, h]

/-- Full evaluation of the scenario from the root `/w`: the failure list is
exactly `["/pkgA"]`, tests ran in `pkgA`, a build ran in `pkgB`, nothing ran
under `trash`, and `Failed:   /pkgA` was reported at error severity. -/
theorem scenarioA_eval : RunTestsRecursively toolA confA "/w" "/w" 0 rootEntriesA =
    some ⟨["/pkgA"], [("/w/pkgA", ["test"]), ("/w/pkgB", ["build"])],
          [.error "FAI", .error "Failed:   /pkgA"]⟩ := by
  have h1 : evalEntries toolA confA "/w" "/w" rootEntriesA =
      some ⟨["/pkgA"], [("/w/pkgA", ["test"]), ("/w/pkgB", ["build"])],
            [.error "FAI", .error "Failed:   /pkgA"]⟩ := by
    have e1 : pathJoin "/w" "pkgA" = "/w/pkgA" := by decide
    have e2 : pathJoin "/w" "pkgB" = "/w/pkgB" := by decide
    have e3 : pathJoin "/w" "trash" = "/w/trash" := by decide
    rw [rootEntriesA]
    rw [evalEntries_cons_dir_bind, e1, pkgA_eval,
        evalEntries_cons_dir_bind, e2, pkgB_eval,
        evalEntries_cons_dir_bind, e3, trashA_eval, evalEntries_nil]
    rfl
  unfold RunTestsRecursively
  rw [h1]
  have ht : goContains "/w" "trash" = false := by decide
  simp [dirStep, invokeStep, classifyLoop, chooseOpts, confA, ht, entryName, rootEntriesA]

/-- A skipped directory (trash marker, identity match, or ignore file)
produces no failures and no invocations, whatever the children outcome. -/
theorem dirStep_skipped (tool : String → List String → Bool × String) (conf : Conf)
    (rootDir dirName : String) (id : Nat) (entries : List FsEntry) (ch : Option RunOut)
    (h : skippedDir conf dirName id entries = true) :
    (dirStep tool conf rootDir dirName id entries ch).map
      (fun r => (r.failures, r.invocations)) = some ([], []) := by
  unfold skippedDir at h
  unfold dirStep
  rcases Bool.or_eq_true_iff.mp h with h' | h3
  · rcases Bool.or_eq_true_iff.mp h' with h1 | h2
    · rw [if_pos h1]; rfl
    · by_cases h1 : goContains dirName "trash" = true
      · rw [if_pos h1]; rfl
      · rw [if_neg h1, if_pos h2]; rfl
  · by_cases h1 : goContains dirName "trash" = true
    · rw [if_pos h1]; rfl
    · rw [if_neg h1]
      by_cases h2 : conf.skipDirs.any (fun sk => sameFile id sk) = true
      · rw [if_pos h2]; rfl
      · rw [if_neg h2, if_pos h3]; rfl

/-- A non-skipped directory propagates a child panic and otherwise performs
the invocation step on the accumulated child outcome. -/
theorem dirStep_not_skipped (tool : String → List String → Bool × String) (conf : Conf)
    (rootDir dirName : String) (id : Nat) (entries : List FsEntry) (ch : Option RunOut)
    (h : skippedDir conf dirName id entries = false) :
    dirStep tool conf rootDir dirName id entries ch =
      match ch with
      | none => none
      | some cr => invokeStep tool conf rootDir dirName entries cr := by
  unfold skippedDir at h
  simp only [Bool.or_eq_false_iff] at h
  unfold dirStep
  rw [if_neg (by simp [h.1.1]), if_neg (by simp [h.1.2]), if_neg (by simp [h.2])]

/-- The invocation step never touches the accumulated child failures except
to append the directory's own relative path exactly when its own invocation
happened and failed. -/
theorem invokeStep_failures (tool : String → List String → Bool × String) (conf : Conf)
    (rootDir dirName : String) (entries : List FsEntry) (cr r : RunOut)
    (h : invokeStep tool conf rootDir dirName entries cr = some r) :
    r.failures = cr.failures ++
      (if failedSelf tool conf dirName entries then [goReplaceAll dirName rootDir] else []) := by
  unfold failedSelf
  simp only [invokeStep] at h
  split at h
  next hco =>
    cases h
    rw [hco]
    simp
  next opts hco =>
    rw [hco]
    split at h
    next htb => cases h
    next bytes htb =>
      split at h
      next hr1 => cases h; simp [hr1]
      next hr1 => cases h; simp [Bool.not_eq_true _ ▸ hr1]

/-- Every invocation recorded by the invocation step is either inherited
from the children or is this directory's own. -/
theorem invokeStep_invocations (tool : String → List String → Bool × String) (conf : Conf)
    (rootDir dirName : String) (entries : List FsEntry) (cr r : RunOut)
    (h : invokeStep tool conf rootDir dirName entries cr = some r) :
    ∀ p ∈ r.invocations, p ∈ cr.invocations ∨ p.1 = dirName := by
  simp only [invokeStep] at h
  split at h
  next hco =>
    cases h
    exact fun p hp => Or.inl hp
  next opts hco =>
    split at h
    next htb => cases h
    next bytes htb =>
      have hmem : ∀ p : String × List String, p ∈ cr.invocations ++ [(dirName, opts)] →
          p ∈ cr.invocations ∨ p.1 = dirName := by
        intro p hp
        rcases List.mem_append.mp hp with hp | hp
        · exact Or.inl hp
        · right
          rw [List.mem_singleton.mp hp]
      split at h
      next hr1 => cases h; exact hmem
      next hr1 => cases h; exact hmem

/-- When the classification flags are both false, no action is chosen. -/
theorem chooseOpts_none (conf : Conf) : chooseOpts conf false false = none := rfl

/-- When a directory has no test sources and no go sources, the invocation
step performs nothing and returns the accumulated child outcome unchanged. -/
theorem invokeStep_no_sources (tool : String → List String → Bool × String) (conf : Conf)
    (rootDir dirName : String) (entries : List FsEntry) (cr : RunOut)
    (h : classifyLoop entries false false = (false, false)) :
    invokeStep tool conf rootDir dirName entries cr = some cr := by
  unfold invokeStep
  rw [h]
  rfl

/-- The length of a joined path strictly exceeds the parent's length. -/
theorem pathJoin_length_lt (d n : String) : d.length < (pathJoin d n).length := by
  have h1 : ("/" : String).length = 1 := rfl
  simp only [pathJoin, String.length_append, h1]
  omega

/-- The failure list computed by the listing loop is exactly the
specification-side depth-first failure sequence of the entries. -/
theorem evalEntries_failures_dfs (tool : String → List String → Bool × String) (conf : Conf)
    (rootDir : String) : ∀ (dirName : String) (l : List FsEntry) (r : RunOut),
    evalEntries tool conf rootDir dirName l = some r →
    r.failures = dfsFailures tool conf rootDir dirName l := by
  intro d l
  induction d, l using evalEntries.induct tool conf rootDir with
  | case1 d =>
    intro r h
    rw [evalEntries_nil] at h
    cases h
    simp [dfsFailures]
  | case2 d n cid ce rest dp hnone ih =>
    intro r h
    have hdp : dp = pathJoin d n := rfl
    rw [hdp] at hnone
    rw [evalEntries_cons_dir_bind] at h
    unfold RunTestsRecursively at h
    rw [hnone] at h
    cases h
  | case3 d n cid ce rest dp cr1 hsome hrest ih ihrest =>
    intro r h
    have hdp : dp = pathJoin d n := rfl
    rw [hdp] at hsome
    rw [evalEntries_cons_dir_bind] at h
    unfold RunTestsRecursively at h
    rw [hsome, hrest] at h
    simp only [Option.some_bind, Option.map_none'] at h
    cases h
  | case4 d n cid ce rest dp cr1 hsome cr2 hrest ih ihrest =>
    intro r h
    have hdp : dp = pathJoin d n := rfl
    rw [hdp] at hsome ih
    rw [evalEntries_cons_dir_bind] at h
    unfold RunTestsRecursively at h
    rw [hsome, hrest] at h
    simp only [Option.some_bind, Option.map_some', Option.some.injEq] at h
    rw [← h]
    show cr1.failures ++ cr2.failures = dfsFailures tool conf rootDir d (.dirE n cid ce :: rest)
    rw [dfsFailures]
    rw [← ihrest cr2 hrest]
    congr 1
    by_cases hs : skippedDir conf (pathJoin d n) cid ce = true
    · have hm := dirStep_skipped tool conf rootDir (pathJoin d n) cid ce
        (evalEntries tool conf rootDir (pathJoin d n) ce) hs
      rw [hsome] at hm
      simp only [Option.map_some', Option.some.injEq, Prod.mk.injEq] at hm
      rw [if_pos hs, hm.1]
    · have hs' : skippedDir conf (pathJoin d n) cid ce = false := by
        simpa using hs
      rw [dirStep_not_skipped tool conf rootDir (pathJoin d n) cid ce _ hs'] at hsome
      cases hce : evalEntries tool conf rootDir (pathJoin d n) ce with
      | none => rw [hce] at hsome; cases hsome
      | some crc =>
        rw [hce] at hsome
        simp only at hsome
        have hf := invokeStep_failures tool conf rootDir (pathJoin d n) ce crc cr1 hsome
        rw [if_neg (by simp [hs']), hf, ih crc hce]
  | case5 d n reg rest ih =>
    intro r h
    rw [evalEntries_cons_file] at h
    rw [dfsFailures]
    exact ih r h

/-- Every tool invocation performed by the listing loop happens in a strict
descendant of the directory: its path is strictly longer. -/
theorem evalEntries_invocations_below (tool : String → List String → Bool × String) (conf : Conf)
    (rootDir : String) : ∀ (dirName : String) (l : List FsEntry) (r : RunOut),
    evalEntries tool conf rootDir dirName l = some r →
    ∀ p ∈ r.invocations, dirName.length < p.1.length := by
  intro d l
  induction d, l using evalEntries.induct tool conf rootDir with
  | case1 d =>
    intro r h
    rw [evalEntries_nil] at h
    cases h
    intro p hp
    cases hp
  | case2 d n cid ce rest dp hnone ih =>
    intro r h
    have hdp : dp = pathJoin d n := rfl
    rw [hdp] at hnone
    rw [evalEntries_cons_dir_bind] at h
    unfold RunTestsRecursively at h
    rw [hnone] at h
    cases h
  | case3 d n cid ce rest dp cr1 hsome hrest ih ihrest =>
    intro r h
    have hdp : dp = pathJoin d n := rfl
    rw [hdp] at hsome
    rw [evalEntries_cons_dir_bind] at h
    unfold RunTestsRecursively at h
    rw [hsome, hrest] at h
    simp only [Option.some_bind, Option.map_none'] at h
    cases h
  | case4 d n cid ce rest dp cr1 hsome cr2 hrest ih ihrest =>
    intro r h
    have hdp : dp = pathJoin d n := rfl
    rw [hdp] at hsome ih
    rw [evalEntries_cons_dir_bind] at h
    unfold RunTestsRecursively at h
    rw [hsome, hrest] at h
    simp only [Option.some_bind, Option.map_some', Option.some.injEq] at h
    rw [← h]
    intro p hp
    simp only [List.mem_append] at hp
    rcases hp with hp | hp
    · by_cases hs : skippedDir conf (pathJoin d n) cid ce = true
      · have hm := dirStep_skipped tool conf rootDir (pathJoin d n) cid ce
          (evalEntries tool conf rootDir (pathJoin d n) ce) hs
        rw [hsome] at hm
        simp only [Option.map_some', Option.some.injEq, Prod.mk.injEq] at hm
        rw [hm.2] at hp
        cases hp
      · have hs' : skippedDir conf (pathJoin d n) cid ce = false := by
          simpa using hs
        rw [dirStep_not_skipped tool conf rootDir (pathJoin d n) cid ce _ hs'] at hsome
        cases hce : evalEntries tool conf rootDir (pathJoin d n) ce with
        | none => rw [hce] at hsome; cases hsome
        | some crc =>
          rw [hce] at hsome
          simp only at hsome
          rcases invokeStep_invocations tool conf rootDir (pathJoin d n) ce crc cr1 hsome p hp
            with hin | hown
          · exact lt_trans (pathJoin_length_lt d n) (ih crc hce p hin)
          · rw [hown]
            exact pathJoin_length_lt d n
    · exact ihrest cr2 hrest p hp
  | case5 d n reg rest ih =>
    intro r h
    rw [evalEntries_cons_file] at h
    exact ih r h

/-! ### Claim theorems -/

/-- C1: the trimming step is claimed to remove exactly the one trailing
newline from captured output ending in a single newline.  The code instead
slices off the last TWO characters (`bytes[0 : len(bytes)-2]`), contradicting
its own comment: on the captured output `ok\n` it produces `o`, not `ok`. -/
theorem trim_step_removes_two_chars :
    trimBytes ['o', 'k', '\n'] = some ['o'] ∧ (['o'] : List Char) ≠ ['o', 'k'] := by
  decide

/-- C2 counterexample: with `buildOnly` set, a directory whose only entry is
the regular test-source file `foo_test.go` — a file with the recognized `.go`
extension — triggers no action at all rather than the claimed "build only"
action, because the `else if` chain never lets a test file set
`anyGoSrcsInDir`. -/
theorem buildOnly_testfile_no_build_action :
    chooseOpts ⟨[], true, false, false, false⟩
        (classifyLoop [.fileE "foo_test.go" true] false false).1
        (classifyLoop [.fileE "foo_test.go" true] false false).2 = none
    ∧ isGoFile "foo_test.go" true = true := by
  decide

/-- C2 (amended): with `buildOnly` set, the evaluator never chooses the
"run tests" action — the only possible action is `build` — and it chooses
`build` exactly when the directory has at least one immediate regular
non-test `.go` file (test-source files do not count toward
`anyGoSrcsInDir`). -/
theorem buildOnly_action_characterization :
    ∀ (sk : List (Option Nat)) (sh ra vb : Bool) (entries : List FsEntry),
    (∀ opts, chooseOpts ⟨sk, true, sh, ra, vb⟩
        (classifyLoop entries false false).1 (classifyLoop entries false false).2 = some opts →
        opts = ["build"])
    ∧ (chooseOpts ⟨sk, true, sh, ra, vb⟩
        (classifyLoop entries false false).1 (classifyLoop entries false false).2 = some ["build"]
        ↔ entries.any isBuildSrcEntry = true) := by
  intro sk sh ra vb entries
  rw [classifyLoop_eq]
  by_cases hb : entries.any isBuildSrcEntry = true
  · constructor
    · intro opts h
      simp [chooseOpts, hb] at h
      rw [h]
    · simp [chooseOpts, hb]
  · constructor
    · intro opts h
      simp [chooseOpts] at h
      rcases h with ⟨-, h⟩
      exact h.symm
    · simp [chooseOpts, hb]

/-- C2 witness: a directory with one regular non-test go file gets the
`build` action under `buildOnly`. -/
theorem buildOnly_action_characterization_witness :
    chooseOpts ⟨[], true, false, false, false⟩
        (classifyLoop [.fileE "m.go" true] false false).1
        (classifyLoop [.fileE "m.go" true] false false).2 = some ["build"] :=
  (buildOnly_action_characterization [] false false false [.fileE "m.go" true]).2.mpr (by decide)

/-- C3 counterexample: in the end-to-end scenario the failure list is
`["/pkgA"]` — the root prefix is deleted from the full path, keeping the
leading separator — not the claimed `["pkgA"]`. -/
theorem scenario_failure_list_not_pkgA :
    (RunTestsRecursively toolA confA "/w" "/w" 0 rootEntriesA).map (fun r => r.failures) =
      some ["/pkgA"]
    ∧ (["/pkgA"] : List String) ≠ ["pkgA"] := by
  rw [scenarioA_eval]
  exact ⟨rfl, by decide⟩

/-- C3 (amended): in the scenario tree (pkgA failing test, pkgB buildable,
trash/pkgC), the failure list is exactly `["/pkgA"]` (the directory's full
path with every occurrence of the root deleted, retaining the leading
separator), tests ran in pkgA and a build in pkgB, nothing under trash,
`Failed:   /pkgA` is emitted at error severity, and the exit status is
non-zero. -/
theorem scenario_failure_list_exact :
    RunTestsRecursively toolA confA "/w" "/w" 0 rootEntriesA =
      some ⟨["/pkgA"], [("/w/pkgA", ["test"]), ("/w/pkgB", ["build"])],
            [.error "FAI", .error "Failed:   /pkgA"]⟩
    ∧ exitCode ["/pkgA"] = 1 :=
  ⟨scenarioA_eval, rfl⟩

/-- C4: a directory that identity-matches a skip target or whose listing
contains `.alltestignore` yields an empty failure sequence and performs no
tool invocation anywhere in its subtree, for every tool oracle and every
subtree content. -/
theorem skip_target_or_marker_empty :
    ∀ (tool : String → List String → Bool × String) (conf : Conf)
      (rootDir dirName : String) (id : Nat) (entries : List FsEntry),
    (conf.skipDirs.any (fun sk => sameFile id sk) = true ∨
     entries.any (fun e => entryName e == ".alltestignore") = true) →
    (RunTestsRecursively tool conf rootDir dirName id entries).map
      (fun r => (r.failures, r.invocations)) = some ([], []) := by
  intro tool conf rootDir dirName id entries h
  unfold RunTestsRecursively
  apply dirStep_skipped
  unfold skippedDir
  rcases h with h | h
  · simp [h]
  · simp [h]

/-- C4 witness: a directory whose identity `5` matches the configured skip
target is skipped. -/
theorem skip_target_or_marker_empty_witness :
    (RunTestsRecursively (fun _ _ => (true, "")) ⟨[some 5], false, false, false, false⟩
        "/w" "/w/d" 5 []).map (fun r => (r.failures, r.invocations)) = some ([], []) :=
  skip_target_or_marker_empty _ _ _ _ _ _ (Or.inl (by decide))

/-- C5: the failure sequence returned for a subtree is exactly the
depth-first, children-before-self, listing-order concatenation of the
failures of the invoked-and-failed descendants, followed by the directory's
own relative path when its own invocation failed. -/
theorem failure_list_eq_dfs :
    ∀ (tool : String → List String → Bool × String) (conf : Conf)
      (rootDir dirName : String) (id : Nat) (entries : List FsEntry) (r : RunOut),
    RunTestsRecursively tool conf rootDir dirName id entries = some r →
    r.failures = dfsDirFailures tool conf rootDir dirName id entries := by
  intro tool conf rootDir dirName id entries r h
  unfold RunTestsRecursively at h
  by_cases hs : skippedDir conf dirName id entries = true
  · have hm := dirStep_skipped tool conf rootDir dirName id entries
      (evalEntries tool conf rootDir dirName entries) hs
    rw [h] at hm
    simp only [Option.map_some', Option.some.injEq, Prod.mk.injEq] at hm
    rw [dfsDirFailures, if_pos hs, hm.1]
  · have hs' : skippedDir conf dirName id entries = false := by simpa using hs
    rw [dirStep_not_skipped tool conf rootDir dirName id entries _ hs'] at h
    cases hce : evalEntries tool conf rootDir dirName entries with
    | none => rw [hce] at h; cases h
    | some cr =>
      rw [hce] at h
      simp only at h
      rw [dfsDirFailures, if_neg (by simp [hs'])]
      rw [invokeStep_failures tool conf rootDir dirName entries cr r h,
          evalEntries_failures_dfs tool conf rootDir dirName entries cr hce]

/-- C5 witness: the scenario's failure list agrees with the
specification-side depth-first failure sequence. -/
theorem failure_list_eq_dfs_witness :
    (["/pkgA"] : List String) = dfsDirFailures toolA confA "/w" "/w" 0 rootEntriesA :=
  failure_list_eq_dfs toolA confA "/w" "/w" 0 rootEntriesA
    ⟨["/pkgA"], [("/w/pkgA", ["test"]), ("/w/pkgB", ["build"])],
     [.error "FAI", .error "Failed:   /pkgA"]⟩ scenarioA_eval

/-- C6: a directory whose path contains the reserved `trash` marker
substring is skipped immediately — for every configuration (including every
skip list), every identity and every listing, the result is empty with no
invocation and no log. -/
theorem trash_path_skipped :
    ∀ (tool : String → List String → Bool × String) (conf : Conf)
      (rootDir dirName : String) (id : Nat) (entries : List FsEntry),
    goContains dirName "trash" = true →
    RunTestsRecursively tool conf rootDir dirName id entries = some ⟨[], [], []⟩ := by
  intro tool conf rootDir dirName id entries h
  unfold RunTestsRecursively dirStep
  rw [if_pos h]

/-- C6 witness: `/w/trash` is skipped even though its subtree holds a
failing test and the skip list is empty. -/
theorem trash_path_skipped_witness :
    RunTestsRecursively (fun _ _ => (false, "boom")) ⟨[], false, false, false, false⟩
      "/w" "/w/trash" 3 [.dirE "pkgC" 4 [.fileE "c_test.go" true]] = some ⟨[], [], []⟩ :=
  trash_path_skipped _ _ _ _ _ _ (by decide)

/-- C7: a directory with no immediate test-source files and no immediate
buildable-source files never has a tool invoked with its own path as the
working directory, and (when it is not skipped) returns exactly the
accumulated child outcome, failures unchanged. -/
theorem no_sources_no_invocation :
    ∀ (tool : String → List String → Bool × String) (conf : Conf)
      (rootDir dirName : String) (id : Nat) (entries : List FsEntry),
    classifyLoop entries false false = (false, false) →
    ((RunTestsRecursively tool conf rootDir dirName id entries).all
        (fun r => r.invocations.all (fun p => p.1 != dirName)) = true)
    ∧ (skippedDir conf dirName id entries = false →
       RunTestsRecursively tool conf rootDir dirName id entries =
         evalEntries tool conf rootDir dirName entries) := by
  intro tool conf rootDir dirName id entries h
  constructor
  · cases hr : RunTestsRecursively tool conf rootDir dirName id entries with
    | none => rfl
    | some r =>
      show r.invocations.all (fun p => p.1 != dirName) = true
      rw [List.all_eq_true]
      intro p hp
      unfold RunTestsRecursively at hr
      by_cases hs : skippedDir conf dirName id entries = true
      · have hm := dirStep_skipped tool conf rootDir dirName id entries
          (evalEntries tool conf rootDir dirName entries) hs
        rw [hr] at hm
        simp only [Option.map_some', Option.some.injEq, Prod.mk.injEq] at hm
        rw [hm.2] at hp
        cases hp
      · have hs' : skippedDir conf dirName id entries = false := by simpa using hs
        rw [dirStep_not_skipped tool conf rootDir dirName id entries _ hs'] at hr
        cases hce : evalEntries tool conf rootDir dirName entries with
        | none => rw [hce] at hr; cases hr
        | some cr =>
          rw [hce] at hr
          simp only at hr
          rw [invokeStep_no_sources tool conf rootDir dirName entries cr h] at hr
          cases hr
          have hlt := evalEntries_invocations_below tool conf rootDir dirName entries r hce p hp
          simp only [bne_iff_ne, ne_eq]
          intro hEq
          rw [hEq] at hlt
          exact lt_irrefl _ hlt
  · intro hs'
    unfold RunTestsRecursively
    rw [dirStep_not_skipped tool conf rootDir dirName id entries _ hs']
    cases hce : evalEntries tool conf rootDir dirName entries with
    | none => rfl
    | some cr => exact invokeStep_no_sources tool conf rootDir dirName entries cr h

/-- C7 witness: a source-less directory above a failing test subtree is
never itself the working directory of an invocation. -/
theorem no_sources_no_invocation_witness :
    (RunTestsRecursively toolB confA "/w" "/w" 7 [.dirE "c" 2 [.fileE "x_test.go" true]]).all
      (fun r => r.invocations.all (fun p => p.1 != "/w")) = true :=
  (no_sources_no_invocation toolB confA "/w" "/w" 7
    [.dirE "c" 2 [.fileE "x_test.go" true]] (by decide)).1

/-- C8: skip-list resolution silently drops an unresolvable `trash` entry,
while any other unresolvable name produces exactly one warning and the
resolution (and hence the run) continues with the remaining names. -/
theorem resolve_skip_tolerates_and_warns :
    ∀ (stat : String → Option Nat) (rest : List String) (n : String),
    (stat "trash" = none →
      resolveSkipDirs stat ("trash" :: rest) = resolveSkipDirs stat rest)
    ∧ (n ≠ "" → n ≠ "trash" → stat n = none →
      resolveSkipDirs stat (n :: rest) =
        (none :: (resolveSkipDirs stat rest).1,
         ("Couldn't stat directory to skip " ++ n) :: (resolveSkipDirs stat rest).2)) := by
  intro stat rest n
  constructor
  · intro h
    simp [resolveSkipDirs, h]
  · intro h1 h2 h3
    simp [resolveSkipDirs, h1, h2, h3]

/-- C8 witness: with an all-failing `stat`, the default name `trash` is
dropped silently while the explicit name `y` is kept (as a nil stat) with a
warning. -/
theorem resolve_skip_tolerates_and_warns_witness :
    resolveSkipDirs (fun _ => none) ["trash"] = ([], []) ∧
    resolveSkipDirs (fun _ => none) ["y"] =
      ([none], ["Couldn't stat directory to skip y"]) := by
  constructor
  · exact ((resolve_skip_tolerates_and_warns (fun _ => none) [] "y").1 rfl).trans rfl
  · exact ((resolve_skip_tolerates_and_warns (fun _ => none) [] "y").2
      (by decide) (by decide) rfl).trans rfl

/-- C9 counterexample: on the one-byte captured output `\n` the slice upper
bound `len(bytes)-2 = -1` is out of range: the trimming step has no defined
result (runtime panic), refuting the claim that the bounds are always in
range. -/
theorem trim_single_newline_panics : trimBytes ['\n'] = none := by decide

/-- C9 (amended): for captured output ending in a newline the slice bounds
of the trimming step are in range exactly when the output has at least two
bytes — in which case it slices off the last two — and are out of range on
the single byte `\n`. -/
theorem trim_bounds_in_range (b : List Char) (h : b.getLast? = some '\n') :
    ((trimBytes b).isSome = true ↔ 2 ≤ b.length)
    ∧ (2 ≤ b.length → trimBytes b = some (b.take (b.length - 2))) := by
  have hne : b ≠ [] := by
    intro hb
    rw [hb] at h
    cases h
  constructor
  · unfold trimBytes goSliceTo
    rw [if_pos ⟨hne, h⟩]
    by_cases h2 : 2 ≤ b.length
    · rw [if_pos (by constructor <;> omega)]
      simp [h2]
    · rw [if_neg (by omega)]
      simp [h2]
  · intro h2
    unfold trimBytes goSliceTo
    rw [if_pos ⟨hne, h⟩, if_pos (by constructor <;> omega)]
    have ht : ((b.length : Int) - 2).toNat = b.length - 2 := by omega
    rw [ht]

/-- C9 witness: on the two-byte output `a\n` the bounds are in range and
the step yields the empty remainder. -/
theorem trim_bounds_in_range_witness : trimBytes ['a', '\n'] = some [] :=
  (trim_bounds_in_range ['a', '\n'] (by decide)).2 (by decide)

/-- C10: the reported path deletes every occurrence of the root from the
directory's path, so a root that is its own failing directory records the
empty string: `strings.Replace(r, r, "", -1) = ""` for every root, and in a
concrete run where the root's own test fails the failure list is `[""]` and
the error message is the bare `Failed:   `. -/
theorem root_failure_empty_path :
    (∀ r : String, goReplaceAll r r = "")
    ∧ RunTestsRecursively toolB confA "/w" "/w" 9 [.fileE "a_test.go" true] =
        some ⟨[""], [("/w", ["test"])], [.error "x", .error "Failed:   "]⟩ := by
  constructor
  · exact goReplaceAll_self
  · simp [RunTestsRecursively, evalEntries, dirStep, invokeStep, classifyLoop, chooseOpts,
      goTestOpts, trimBytes, goSliceTo, goReplaceAll, stripOcc, isTestFile, isGoFile,
      isNormalFile, hasSuffix, entryName, sameFile, toolB, confA]
    decide

/-- C10 witness: deleting the root `/w` from itself yields the empty
string. -/
theorem root_failure_empty_path_witness : goReplaceAll "/w" "/w" = "" :=
  root_failure_empty_path.1 "/w"

end Alltest
